import Mathlib

/-!
Verification of the projection engine of the Economic-freedom-calculator
repository (`src/financial_calculator.py`).

The engine consists of two pure functions:

* `calculate_pension_goal` — present value of the annuity funding monthly
  expenses until age 67 (via `numpy_financial.pv`);
* `calculate_future_value` — the year-by-year simulation with an
  accumulation→drawdown latch.

Monetary amounts and rates are embedded as exact rationals (`ℚ`); the
Python source computes in floating point, but every claim checked here is
about the algebraic recurrences, which are rate-independent of the number
representation.  A Python run that raises an uncaught exception
(`ZeroDivisionError` in Freedom mode with `safe_rate = 0`) is modelled as
`none`: the call produces no result.
-/

namespace EFC

/-- The `mode` string parameter of the source: `"basic"`, `"freedom"` or
`"pension"`.  Any other string behaves like `"basic"` (the goal stays
`None` and the drawdown branch is unreachable). -/
inductive Mode
  | basic
  | freedom
  | pension
deriving DecidableEq, Repr

/-- `numpy_financial.pv(rate, nper, pmt, fv)` with `when='end'` (the
default), i.e. the when-coefficient is `0`:
`pv = -(fv + pmt*fact)/temp` with `temp = (1+rate)^nper` and
`fact = nper` if `rate = 0` else `(1 + rate*0)*(temp - 1)/rate`. -/
def npf_pv (rate : ℚ) (nper : ℕ) (pmt : ℚ) (fv : ℚ) : ℚ :=
  let temp := (1 + rate) ^ nper
  let fact := if rate = 0 then (nper : ℚ) else (1 + rate * 0) * (temp - 1) / rate;
  -(fv + pmt * fact) / temp

/-- `calculate_pension_goal(monthly_exp, current_age, safe_rate)` from the
source: `years_until_67 = max(0, 67 - current_age)`; `0` if that is `≤ 0`;
otherwise the `npf.pv` annuity value when `safe_rate > 0`, else the
undiscounted sum `annual_expenses * years_until_67`. -/
def calculate_pension_goal (monthly_exp : ℚ) (current_age : ℤ) (safe_rate : ℚ) : ℚ :=
  let years_until_67 : ℤ := max 0 (67 - current_age)
  if years_until_67 ≤ 0 then 0
  else
    let annual_expenses := monthly_exp * 12
    if safe_rate > 0 then
      npf_pv safe_rate years_until_67.toNat (-annual_expenses) 0
    else
      annual_expenses * (years_until_67 : ℚ)

/-- The goal computation at the top of `calculate_future_value`
(source lines 32–36).  The outer `Option` is the run outcome: `none`
models the uncaught Python `ZeroDivisionError` raised by
`(monthly_exp * 12) / safe_rate` when `safe_rate = 0`; `some g` is a
normal return of the (optional) goal `g`. -/
def compute_goal (monthly_exp : Option ℚ) (mode : Mode) (safe_rate : ℚ)
    (current_age : ℤ) : Option (Option ℚ) :=
  match monthly_exp with
  | none => some none
  | some me =>
    match mode with
    | Mode.freedom =>
        if safe_rate = 0 then none
        else some (some (me * 12 / safe_rate))
    | Mode.pension => some (some (calculate_pension_goal me current_age safe_rate))
    | Mode.basic => some none

/-- One accumulation step (source line 41):
`new_value = values[-1] * (1 + rate) + yearly_payment`. -/
def accVal (rate yearly_payment : ℚ) (prev : ℚ) : ℚ :=
  prev * (1 + rate) + yearly_payment

/-- One drawdown step (source lines 48–55):
`annual_expenses = monthly_exp * 12`;
`new_value = values[-1] * (1 + safe_rate) - annual_expenses`, identically
for both `freedom` and `pension`.  The `basic` case is unreachable from
the loop (the goal is `None` then, so the guard always accumulates); it is
given the value `prev` only to make the match total, mirroring the
source where `new_value` would simply be unbound on that path.
`monthly_exp = none` is likewise unreachable here (the goal is `None`). -/
def ddVal (mode : Mode) (monthly_exp : Option ℚ) (safe_rate : ℚ) (prev : ℚ) : ℚ :=
  match mode with
  | Mode.freedom => prev * (1 + safe_rate) - monthly_exp.getD 0 * 12
  | Mode.pension => prev * (1 + safe_rate) - monthly_exp.getD 0 * 12
  | Mode.basic => prev

/-- The loop guard of source line 39:
`(goal is None or values[-1] < goal) and goal_reached == 0`. -/
def accumGuard (goal : Option ℚ) (last : ℚ) (goal_reached : ℕ) : Bool :=
  (match goal with
   | none => true
   | some g => decide (last < g)) && (goal_reached == 0)

/-- The simulation loop of `calculate_future_value` (source lines 38–57),
recursing on the number of remaining iterations.  State carried across
iterations: `year` (the 1-based loop counter), `last` (`values[-1]`),
`goal_reached` (the `0`/`1` latch) and `gry` (`goal_reached_year`).
Returns the appended values (in order) and the final `goal_reached_year`. -/
def cfvAux (goal : Option ℚ) (mode : Mode) (monthly_exp : Option ℚ)
    (rate yearly_payment safe_rate : ℚ) :
    ℕ → ℕ → ℚ → ℕ → Option ℕ → List ℚ × Option ℕ
  | 0, _, _, _, gry => ([], gry)
  | n + 1, year, last, goal_reached, gry =>
    if accumGuard goal last goal_reached then
      let nv := accVal rate yearly_payment last
      let r := cfvAux goal mode monthly_exp rate yearly_payment safe_rate n
        (year + 1) nv goal_reached gry
      (nv :: r.1, r.2)
    else
      let gry2 : Option ℕ := some (gry.getD year)
      let nv := ddVal mode monthly_exp safe_rate last
      let r := cfvAux goal mode monthly_exp rate yearly_payment safe_rate n
        (year + 1) nv 1 gry2
      (nv :: r.1, r.2)

/-- `calculate_future_value(initial_value, yearly_payment, rate, years,
monthly_exp, safe_rate, mode, current_age)` from the source.  `years` is
an integer; `range(1, years + 1)` runs `max 0 years = years.toNat` times.
Returns `none` exactly when the goal computation raises (Freedom mode,
`safe_rate = 0`); otherwise `some (values, goal_reached_year, goal)`. -/
def calculate_future_value (initial_value yearly_payment rate : ℚ) (years : ℤ)
    (monthly_exp : Option ℚ) (safe_rate : ℚ) (mode : Mode) (current_age : ℤ) :
    Option (List ℚ × Option ℕ × Option ℚ) :=
  match compute_goal monthly_exp mode safe_rate current_age with
  | none => none
  | some goal =>
    let r := cfvAux goal mode monthly_exp rate yearly_payment safe_rate
      years.toNat 1 initial_value 0 none
    some (initial_value :: r.1, r.2, goal)

/-- `iterList f n v` is the list `[f v, f (f v), …, f^[n] v]` of the `n`
successive images of `v` under `f` — the trace of a single-rule loop. -/
def iterList (f : ℚ → ℚ) : ℕ → ℚ → List ℚ
  | 0, _ => []
  | n + 1, v => f v :: iterList f n (f v)

/-- The loop appends exactly one value per iteration. -/
theorem cfvAux_length (goal : Option ℚ) (mode : Mode) (me : Option ℚ)
    (rate yp sr : ℚ) (n : ℕ) :
    ∀ year last gr gry, (cfvAux goal mode me rate yp sr n year last gr gry).1.length = n := by
  induction n with
  | zero => intro year last gr gry; rfl
  | succ n ih =>
    intro year last gr gry
    by_cases h : accumGuard goal last gr = true <;>
      simp [cfvAux, h, ih]

theorem iterList_length (f : ℚ → ℚ) (n : ℕ) : ∀ v, (iterList f n v).length = n := by
  induction n with
  | zero => intro v; rfl
  | succ n ih => intro v; simp [iterList, ih]

theorem iterList_getD (f : ℚ → ℚ) (n : ℕ) :
    ∀ v i, i < n → (iterList f n v).getD i 0 = f^[i + 1] v := by
  induction n with
  | zero => intro v i h; omega
  | succ n ih =>
    intro v i h
    cases i with
    | zero => simp [iterList]
    | succ i =>
      have := ih (f v) i (by omega)
      simp only [iterList, List.getD_cons_succ, this,
        Function.iterate_succ_apply]

/-- Once the latch is set (`goal_reached = 1`), every remaining iteration
applies the drawdown rule and `goal_reached_year` is never changed. -/
theorem cfvAux_locked (goal : Option ℚ) (mode : Mode) (me : Option ℚ)
    (rate yp sr : ℚ) (n : ℕ) :
    ∀ year last y, cfvAux goal mode me rate yp sr n year last 1 (some y) =
      (iterList (ddVal mode me sr) n last, some y) := by
  induction n with
  | zero => intro year last y; rfl
  | succ n ih =>
    intro year last y
    have hg : accumGuard goal last 1 = false := by
      simp [accumGuard]
    simp [cfvAux, hg, iterList, ih]

/-- With no goal defined, every iteration accumulates and
`goal_reached_year` stays unset. -/
theorem cfvAux_none (mode : Mode) (me : Option ℚ) (rate yp sr : ℚ) (n : ℕ) :
    ∀ year last, cfvAux none mode me rate yp sr n year last 0 none =
      (iterList (accVal rate yp) n last, none) := by
  induction n with
  | zero => intro year last; rfl
  | succ n ih =>
    intro year last
    have hg : accumGuard none last 0 = true := by simp [accumGuard]
    simp [cfvAux, hg, iterList, ih]

/-- Shape of a run that starts unlatched with a defined goal: either the
whole horizon accumulates (and `goal_reached_year` stays unset), or there
is a split point `k` after which everything is drawdown and
`goal_reached_year = year + k`. -/
theorem cfvAux_split (g : ℚ) (mode : Mode) (me : Option ℚ)
    (rate yp sr : ℚ) (n : ℕ) :
    ∀ year last,
      cfvAux (some g) mode me rate yp sr n year last 0 none =
        (iterList (accVal rate yp) n last, none) ∨
      ∃ k, k < n ∧
        cfvAux (some g) mode me rate yp sr n year last 0 none =
          (iterList (accVal rate yp) k last ++
            iterList (ddVal mode me sr) (n - k) ((accVal rate yp)^[k] last),
           some (year + k)) := by
  induction n with
  | zero => intro year last; left; rfl
  | succ n ih =>
    intro year last
    by_cases h : last < g
    · have hg : accumGuard (some g) last 0 = true := by simp [accumGuard, h]
      rcases ih (year + 1) (accVal rate yp last) with h1 | ⟨k, hk, h2⟩
      · left
        simp [cfvAux, hg, iterList, h1]
      · right
        refine ⟨k + 1, by omega, ?_⟩
        have hn : n + 1 - (k + 1) = n - k := by omega
        have hy : year + 1 + k = year + (k + 1) := by omega
        simp only [cfvAux, hg, if_pos, h2, hn, hy, iterList,
          Function.iterate_succ_apply, List.cons_append]
    · have hg : accumGuard (some g) last 0 = false := by simp [accumGuard, h]
      right
      refine ⟨0, by omega, ?_⟩
      simp only [cfvAux, hg, Bool.false_eq_true, if_false, Option.getD_none,
        cfvAux_locked, Nat.sub_zero, Function.iterate_zero, id_eq, iterList,
        List.nil_append, Nat.add_zero]

/-- Indexing a trace list prefixed with its seed: position `i` holds the
`i`-th iterate. -/
theorem cons_iterList_getD (f : ℚ → ℚ) (n : ℕ) (v : ℚ) (i : ℕ) (hi : i ≤ n) :
    (v :: iterList f n v).getD i 0 = f^[i] v := by
  cases i with
  | zero => simp
  | succ i =>
    rw [List.getD_cons_succ, iterList_getD f n v i (by omega)]

/-- Indexing the two-phase trace, accumulation part. -/
theorem phases_getD_left (f g : ℚ → ℚ) (k m : ℕ) (v : ℚ) (i : ℕ) (hi : i ≤ k) :
    (v :: (iterList f k v ++ iterList g m (f^[k] v))).getD i 0 = f^[i] v := by
  cases i with
  | zero => simp
  | succ i =>
    rw [List.getD_cons_succ,
      List.getD_append _ _ _ _ (by rw [iterList_length]; omega),
      iterList_getD f k v i (by omega)]

/-- Indexing the two-phase trace, drawdown part. -/
theorem phases_getD_right (f g : ℚ → ℚ) (k m : ℕ) (v : ℚ) (j : ℕ) (hj : j ≤ m) :
    (v :: (iterList f k v ++ iterList g m (f^[k] v))).getD (k + j) 0 =
      g^[j] (f^[k] v) := by
  cases j with
  | zero =>
    simpa using phases_getD_left f g k m v k le_rfl
  | succ j =>
    have hk1 : k + (j + 1) = (k + j) + 1 := by omega
    rw [hk1, List.getD_cons_succ,
      List.getD_append_right _ _ _ _ (by rw [iterList_length]; omega),
      iterList_length, Nat.add_sub_cancel_left,
      iterList_getD g m _ j (by omega)]

/-- C4: in Freedom mode with `monthly_expense` supplied and `safe_rate > 0`,
the computed goal is `(monthly_expense * 12) / safe_rate`. -/
theorem freedom_goal_formula (me sr : ℚ) (age : ℤ) (h : 0 < sr) :
    compute_goal (some me) Mode.freedom sr age = some (some (me * 12 / sr)) := by
  simp [compute_goal, h.ne']

/-- C4 witness: `monthly_expense = 3000`, `safe_rate = 1/25 = 0.04` yields
goal `900000`. -/
theorem freedom_goal_formula_witness :
    compute_goal (some 3000) Mode.freedom (1/25) 30 = some (some 900000) := by
  have h := freedom_goal_formula 3000 (1/25) 30 (by norm_num)
  rw [h]; norm_num

/-- C10: in Pension mode with `current_age < 67` and `safe_rate ≤ 0` (zero
or negative alike, since the code's branch condition is `safe_rate > 0`),
the goal is the undiscounted sum `monthly_expense * 12 * years_to_target`. -/
theorem pension_goal_linear (me sr : ℚ) (age : ℤ) (hsr : sr ≤ 0) (hage : age < 67) :
    compute_goal (some me) Mode.pension sr age =
      some (some (me * 12 * ((67 - age : ℤ) : ℚ))) := by
  have h0 : (0:ℤ) ≤ 67 - age := by omega
  have h1 : max (0:ℤ) (67 - age) = 67 - age := max_eq_right h0
  have h2 : ¬(67 - age ≤ (0:ℤ)) := by omega
  have h3 : ¬(sr > 0) := not_lt.mpr hsr
  simp [compute_goal, calculate_pension_goal, h1, h2, h3]

/-- C10 witness: `monthly_expense = 1000`, `current_age = 62`,
`safe_rate = 0` gives `years_to_target = 5` and goal `60000`. -/
theorem pension_goal_linear_witness :
    compute_goal (some 1000) Mode.pension 0 62 = some (some 60000) := by
  have h := pension_goal_linear 1000 0 62 le_rfl (by norm_num)
  rw [h]; norm_num

/-- C5: in Pension mode with `safe_rate > 0` and `current_age < 67`, the
`npf.pv`-based goal agrees with the closed-form present value of an
ordinary annuity
`(monthly_expense * 12) * (1 - (1+safe_rate)^(-years_to_target)) / safe_rate`. -/
theorem pension_goal_annuity (me sr : ℚ) (age : ℤ) (hsr : 0 < sr) (hage : age < 67) :
    compute_goal (some me) Mode.pension sr age =
      some (some (me * 12 * (1 - (1 + sr) ^ (-(67 - age))) / sr)) := by
  have h0 : (0:ℤ) ≤ 67 - age := by omega
  have h1 : max (0:ℤ) (67 - age) = 67 - age := max_eq_right h0
  have h2 : ¬(67 - age ≤ (0:ℤ)) := by omega
  have hz : (67 - age : ℤ) = ((67 - age).toNat : ℤ) := (Int.toNat_of_nonneg h0).symm
  have ht : (0:ℚ) < (1 + sr) ^ (67 - age).toNat := pow_pos (by linarith) _
  simp only [compute_goal, calculate_pension_goal, npf_pv, h1, h2, if_false,
    hsr, if_true, if_pos, if_neg hsr.ne', Option.some.injEq]
  rw [hz, zpow_neg, zpow_natCast]
  field_simp
  ring_nf
  exact Or.inl trivial

/-- C5 witness: `monthly_expense = 1000`, `safe_rate = 1/4`,
`current_age = 62` — a concrete instance of the closed-form equality. -/
theorem pension_goal_annuity_witness :
    compute_goal (some 1000) Mode.pension (1/4) 62 =
      some (some (1000 * 12 * (1 - (1 + 1/4) ^ (-(67 - (62:ℤ)))) / (1/4))) :=
  pension_goal_annuity 1000 (1/4) 62 (by norm_num) (by norm_num)

/-- Destructuring a successful `calculate_future_value` call into the goal
computation and the loop. -/
theorem cfv_some (iv yp rate : ℚ) (years : ℤ) (me : Option ℚ) (sr : ℚ)
    (mode : Mode) (age : ℤ) (values : List ℚ) (gry : Option ℕ) (goal : Option ℚ)
    (h : calculate_future_value iv yp rate years me sr mode age =
      some (values, gry, goal)) :
    compute_goal me mode sr age = some goal ∧
    values = iv :: (cfvAux goal mode me rate yp sr years.toNat 1 iv 0 none).1 ∧
    gry = (cfvAux goal mode me rate yp sr years.toNat 1 iv 0 none).2 := by
  unfold calculate_future_value at h
  cases hcg : compute_goal me mode sr age with
  | none => rw [hcg] at h; exact absurd h (by simp)
  | some g0 =>
    rw [hcg] at h
    simp only [Option.some.injEq, Prod.mk.injEq] at h
    obtain ⟨hv, hg, hgl⟩ := h
    subst hgl
    exact ⟨rfl, hv.symm, hg.symm⟩

/-- C2: every successful run over a horizon of at least one year returns a
values sequence of length `horizon_years + 1` whose first element is
`initial_value`. -/
theorem values_length_head (iv yp rate : ℚ) (years : ℤ) (me : Option ℚ) (sr : ℚ)
    (mode : Mode) (age : ℤ) (values : List ℚ) (gry : Option ℕ) (goal : Option ℚ)
    (_hy : 1 ≤ years)
    (h : calculate_future_value iv yp rate years me sr mode age =
      some (values, gry, goal)) :
    values.length = years.toNat + 1 ∧ values.getD 0 0 = iv := by
  obtain ⟨-, hv, -⟩ := cfv_some iv yp rate years me sr mode age values gry goal h
  subst hv
  exact ⟨by simp [cfvAux_length], rfl⟩

/-- C2 witness: a one-year basic run. -/
theorem values_length_head_witness :
    ([10000, 15700] : List ℚ).length = (1:ℤ).toNat + 1 ∧
    ([10000, 15700] : List ℚ).getD 0 0 = 10000 :=
  values_length_head 10000 5000 (7/100) 1 none (1/25) Mode.basic 30
    [10000, 15700] none none (by norm_num)
    (by norm_num [calculate_future_value, compute_goal, cfvAux, accumGuard, accVal])

/-- C3: when the computed goal is undefined every step is the
accumulation rule `values[i] = values[i-1]*(1+growth_rate) +
yearly_contribution` and `goal_reached_year` is none. -/
theorem pure_accumulation (iv yp rate : ℚ) (years : ℤ) (me : Option ℚ) (sr : ℚ)
    (mode : Mode) (age : ℤ) (values : List ℚ) (gry : Option ℕ)
    (h : calculate_future_value iv yp rate years me sr mode age =
      some (values, gry, none)) :
    gry = none ∧
    ∀ i, 1 ≤ i → i ≤ years.toNat →
      values.getD i 0 = values.getD (i - 1) 0 * (1 + rate) + yp := by
  obtain ⟨-, hv, hg⟩ := cfv_some iv yp rate years me sr mode age values gry none h
  rw [cfvAux_none] at hv hg
  refine ⟨hg, ?_⟩
  intro i h1 h2
  subst hv
  obtain ⟨j, rfl⟩ : ∃ j, i = j + 1 := ⟨i - 1, by omega⟩
  rw [cons_iterList_getD _ _ _ (j + 1) h2]
  rw [show j + 1 - 1 = j from by omega]
  rw [cons_iterList_getD _ _ _ j (by omega), Function.iterate_succ_apply']
  rfl

/-- C3 witness: a one-year basic run satisfies the accumulation rule at
index 1 and reports no goal year. -/
theorem pure_accumulation_witness :
    (none : Option ℕ) = none ∧
    ([10000, 15700] : List ℚ).getD 1 0 =
      ([10000, 15700] : List ℚ).getD 0 0 * (1 + 7/100) + 5000 := by
  have h := pure_accumulation 10000 5000 (7/100) 1 none (1/25) Mode.basic 30
    [10000, 15700] none
    (by norm_num [calculate_future_value, compute_goal, cfvAux, accumGuard, accVal])
  exact ⟨h.1, h.2 1 le_rfl (by norm_num)⟩

/-- C7 amended: for `horizon_years ≤ 0` the engine performs no validation
and returns the degenerate single-element result `([initial_value], none,
goal)` for any goal computation that does not itself raise. -/
theorem degenerate_horizon_result (iv yp rate : ℚ) (years : ℤ) (me : Option ℚ)
    (sr : ℚ) (mode : Mode) (age : ℤ) (goal : Option ℚ)
    (hy : years ≤ 0) (hg : compute_goal me mode sr age = some goal) :
    calculate_future_value iv yp rate years me sr mode age =
      some ([iv], none, goal) := by
  have h0 : years.toNat = 0 := by omega
  simp [calculate_future_value, hg, h0, cfvAux]

/-- C7 amended witness: a negative horizon in Freedom mode still returns
the degenerate result. -/
theorem degenerate_horizon_result_witness :
    calculate_future_value 500 100 (1/10) (-2) (some 3000) (1/25) Mode.freedom 30 =
      some ([500], none, some 900000) :=
  degenerate_horizon_result 500 100 (1/10) (-2) (some 3000) (1/25) Mode.freedom 30
    (some 900000) (by norm_num) (by norm_num [compute_goal])

/-- In Freedom and Pension modes (the only modes that can set a goal), the
drawdown step is `prev * (1 + safe_rate) - monthly_expense * 12`. -/
theorem ddVal_eq (mode : Mode) (hm : mode ≠ Mode.basic) (me sr v : ℚ) :
    ddVal mode (some me) sr v = v * (1 + sr) - me * 12 := by
  cases mode with
  | basic => exact absurd rfl hm
  | freedom => rfl
  | pension => rfl

/-- C1: in every successful run whose result carries a defined goal and a
set `goal_reached_year = y`, the transition is an irreversible latch:
every value at index `y ≤ i ≤ horizon` is produced by the drawdown rule
`values[i] = values[i-1]*(1+safe_rate) - monthly_expense*12` (even when a
drawdown step moves the value across the goal again), and every value at
index `1 ≤ i < y` by the accumulation rule
`values[i] = values[i-1]*(1+growth_rate) + yearly_contribution`. -/
theorem transition_latch (iv yp rate : ℚ) (years : ℤ) (me sr : ℚ) (mode : Mode)
    (age : ℤ) (values : List ℚ) (y : ℕ) (g : ℚ)
    (h : calculate_future_value iv yp rate years (some me) sr mode age =
      some (values, some y, some g)) :
    (∀ i, y ≤ i → i ≤ years.toNat →
      values.getD i 0 = values.getD (i - 1) 0 * (1 + sr) - me * 12) ∧
    (∀ i, 1 ≤ i → i < y →
      values.getD i 0 = values.getD (i - 1) 0 * (1 + rate) + yp) := by
  obtain ⟨hcg, hv, hgry⟩ :=
    cfv_some iv yp rate years (some me) sr mode age values (some y) (some g) h
  have hm : mode ≠ Mode.basic := by
    intro hb
    subst hb
    simp [compute_goal] at hcg
  rcases cfvAux_split g mode (some me) rate yp sr years.toNat 1 iv with hall | ⟨k, hk, heq⟩
  · rw [hall] at hgry
    exact absurd hgry (by simp)
  · rw [heq] at hv hgry
    have hy : y = 1 + k := by simpa using hgry
    subst hv
    constructor
    · intro i hi1 hi2
      obtain ⟨j, rfl⟩ : ∃ j, i = k + (j + 1) := ⟨i - k - 1, by omega⟩
      have hj : j + 1 ≤ years.toNat - k := by omega
      rw [phases_getD_right _ _ _ _ _ (j + 1) hj]
      rw [show k + (j + 1) - 1 = k + j from by omega]
      rw [phases_getD_right _ _ _ _ _ j (by omega)]
      rw [Function.iterate_succ_apply']
      exact ddVal_eq mode hm me sr _
    · intro i hi1 hi2
      obtain ⟨j, rfl⟩ : ∃ j, i = j + 1 := ⟨i - 1, by omega⟩
      rw [phases_getD_left _ _ _ _ _ (j + 1) (by omega)]
      rw [show j + 1 - 1 = j from by omega]
      rw [phases_getD_left _ _ _ _ _ j (by omega)]
      rw [Function.iterate_succ_apply']
      rfl

/-- C1 witness: a two-year Freedom run that starts above its goal, so the
latch is set in year 1 and both simulated years use the drawdown rule. -/
theorem transition_latch_witness :
    ([1000000, 1004000, 1008160] : List ℚ).getD 1 0 =
      ([1000000, 1004000, 1008160] : List ℚ).getD 0 0 * (1 + 1/25) - 3000 * 12 ∧
    ([1000000, 1004000, 1008160] : List ℚ).getD 2 0 =
      ([1000000, 1004000, 1008160] : List ℚ).getD 1 0 * (1 + 1/25) - 3000 * 12 := by
  have h := transition_latch 1000000 0 0 2 3000 (1/25) Mode.freedom 30
    [1000000, 1004000, 1008160] 1 900000
    (by norm_num [calculate_future_value, compute_goal, cfvAux, accumGuard, accVal, ddVal])
  exact ⟨h.1 1 le_rfl (by norm_num), h.1 2 (by norm_num) (by norm_num)⟩

/-- C6 counterexample: in Freedom mode with `safe_rate = -1/25 < 0` the
engine does not signal anything — it silently computes the negative goal
`-900000` and returns a full ProjectionResult (immediately in drawdown,
since `600000 ≥ -900000`). -/
theorem freedom_negative_rate_cx :
    calculate_future_value 600000 0 0 1 (some 3000) (-(1/25)) Mode.freedom 30 =
      some ([600000, 540000], some 1, some (-900000)) := by
  norm_num [calculate_future_value, compute_goal, cfvAux, accumGuard, accVal, ddVal]

/-- C6 amended: Freedom mode performs no rate validation.  For
`safe_rate < 0` the call succeeds and silently carries the negative goal
`monthly_expense*12/safe_rate`; only `safe_rate = 0` produces no result,
via an uncaught `ZeroDivisionError` rather than a signaled InvalidRate. -/
theorem freedom_no_rate_validation (iv yp rate : ℚ) (years : ℤ) (me sr : ℚ)
    (age : ℤ) (hsr : sr < 0) (hme : 0 < me) :
    (calculate_future_value iv yp rate years (some me) sr Mode.freedom age).map
        (fun r => r.2.2) = some (some (me * 12 / sr)) ∧
    me * 12 / sr < 0 ∧
    calculate_future_value iv yp rate years (some me) 0 Mode.freedom age = none := by
  refine ⟨?_, ?_, ?_⟩
  · simp [calculate_future_value, compute_goal, hsr.ne]
  · exact div_neg_of_pos_of_neg (mul_pos hme (by norm_num)) hsr
  · simp [calculate_future_value, compute_goal]

/-- C6 amended witness: concrete instance at `safe_rate = -1/25`,
`monthly_expense = 3000`. -/
theorem freedom_no_rate_validation_witness :
    (calculate_future_value 600000 0 0 1 (some 3000) (-(1/25)) Mode.freedom 30).map
        (fun r => r.2.2) = some (some (3000 * 12 / -(1/25))) ∧
    (3000 : ℚ) * 12 / -(1/25) < 0 ∧
    calculate_future_value 600000 0 0 1 (some 3000) 0 Mode.freedom 30 = none :=
  freedom_no_rate_validation 600000 0 0 1 3000 (-(1/25)) 30 (by norm_num) (by norm_num)

/-- C7 counterexample: with `horizon_years = 0` the engine signals nothing
and returns the degenerate single-element sequence `[initial_value]`. -/
theorem degenerate_horizon_cx :
    calculate_future_value 10000 5000 (7/100) 0 none (1/25) Mode.basic 30 =
      some ([10000], none, none) := by
  norm_num [calculate_future_value, compute_goal, cfvAux]

/-- C8 counterexample: Freedom mode with `monthly_expense` absent signals
nothing — the run completes in pure accumulation with no goal. -/
theorem missing_expense_cx :
    calculate_future_value 10000 5000 (7/100) 2 none (1/25) Mode.freedom 30 =
      some ([10000, 15700, 21799], none, none) := by
  norm_num [calculate_future_value, compute_goal, cfvAux, accumGuard, accVal]

/-- C8 amended: when `monthly_expense` is absent the engine performs no
validation: regardless of mode the goal stays undefined and the whole
horizon is pure accumulation, returned as a full ProjectionResult. -/
theorem missing_expense_accumulates (iv yp rate : ℚ) (years : ℤ) (sr : ℚ)
    (mode : Mode) (age : ℤ) :
    calculate_future_value iv yp rate years none sr mode age =
      some (iv :: iterList (accVal rate yp) years.toNat iv, none, none) := by
  have hcg : compute_goal none mode sr age = some none := rfl
  simp [calculate_future_value, hcg, cfvAux_none]

/-- C9 counterexample: on the spec's end-to-end example input the code
does not return the spec's list — `values[2]` is `21799`
(`15700 * 1.07 + 5000`), not `22299`. -/
theorem example_run_cx :
    (calculate_future_value 10000 5000 (7/100) 3 none (1/25) Mode.basic 30).map
      (fun r => r.1) ≠ some [10000, 15700, 22299, 2997993/100] := by
  norm_num [calculate_future_value, compute_goal, cfvAux, accumGuard, accVal]

/-- C9 amended: the example run `initial_value = 10000`,
`yearly_contribution = 5000`, `growth_rate = 7/100`, `horizon_years = 3`,
goal undefined, returns `values = [10000, 15700, 21799, 28324.93]`, each
element the previous one times `1.07` plus `5000`, in exact rational
arithmetic. -/
theorem example_run_values :
    calculate_future_value 10000 5000 (7/100) 3 none (1/25) Mode.basic 30 =
      some ([10000, 15700, 21799, 2832493/100], none, none) := by
  norm_num [calculate_future_value, compute_goal, cfvAux, accumGuard, accVal]

end EFC
